import Mathlib

/-!
# Verification of `planner_core.py` (Sam4896/goal_planner)

Shallow embedding, over `ℝ`, of the SWP (systematic withdrawal plan) solver in
`src/planner_core.py`.  Python `float` arithmetic is modelled by exact real
arithmetic; Python `int` by `ℕ`/`ℤ`.  Python's `round` is modelled by Mathlib's
`round` (they differ only on half-integer ties, which no claim touches).
Division in Lean is total (`x / 0 = 0`); Python raises `ZeroDivisionError`
instead, so definedness of each division performed by the code is tracked by
explicit nonzero-divisor statements (claim C3).  The exponent `n` of
`_fv_before_tax` is modelled as `ℕ`: every call site of the source passes a
non-negative month count (`months ≥ 0`, or `round(Ti*12)` with `Ti ≥ 0` from
the documented domain).
-/

namespace GoalPlanner

/-- Error outcomes of `solve_swp`: the `ValueError` ("Exactly one of (Ti, Mi,
I) must be None.") and the `RuntimeError` ("Goal unreachable within
search_cap_years."). -/
inductive SwpError where
  | invalidInput
  | goalUnreachable
deriving DecidableEq

/-- The dict returned by `solve_swp`. -/
structure SwpResult where
  I : ℝ
  Mi : ℝ
  Ti : ℝ
  corpus_at_retirement : ℝ

/-- `_gross_monthly`: `(1 + r_annual) ** (1 / 12) - 1`. -/
noncomputable def gross_monthly (r_annual : ℝ) : ℝ :=
  (1 + r_annual) ^ ((1 : ℝ) / 12) - 1

/-- `_fv_before_tax`: `L * (1 + r) ** n` plus
`M * ((1 + r) ** n - 1) / r if abs(r) > 1e-12 else M * n`. -/
noncomputable def fv_before_tax (L M r : ℝ) (n : ℕ) : ℝ :=
  L * (1 + r) ^ n +
    (if |r| > 1e-12 then M * ((1 + r) ^ n - 1) / r else M * n)

/-- `_corpus_after_tax`: `fv_bt - max(gains, 0) * tax` with
`gains = fv_bt - (L + M * n)`. -/
noncomputable def corpus_after_tax (L M r : ℝ) (n : ℕ) (tax : ℝ) : ℝ :=
  fv_before_tax L M r n - max (fv_before_tax L M r n - (L + M * n)) 0 * tax

/-- `_corpus_needed_for_swp`: growing-annuity present value at retirement. -/
noncomputable def corpus_needed_for_swp (A_today Ti Tw infl r_month : ℝ) : ℝ :=
  let g := (1 + infl) ^ ((1 : ℝ) / 12) - 1
  let M : ℤ := round (Tw * 12)
  let W0 := A_today * (1 + infl) ^ Ti
  if |r_month - g| < 1e-12 then W0 * M / (1 + r_month)
  else W0 * (1 - ((1 + g) / (1 + r_month)) ^ M) / (r_month - g)

/-- The local `annuity` of `solve_swp`:
`((growth - 1) / r) if abs(r) > 1e-12 else n` with `growth = (1 + r) ** n`. -/
noncomputable def annuity_factor (r : ℝ) (n : ℕ) : ℝ :=
  if |r| > 1e-12 then ((1 + r) ^ n - 1) / r else n

/-- The local `A_L` of `solve_swp`: `(1 - tax_rate) * growth + tax_rate`. -/
noncomputable def A_L (tax r : ℝ) (n : ℕ) : ℝ :=
  (1 - tax) * (1 + r) ^ n + tax

/-- The local `A_M` of `solve_swp`: `(1 - tax_rate) * annuity + tax_rate * n`. -/
noncomputable def A_M (tax r : ℝ) (n : ℕ) : ℝ :=
  (1 - tax) * annuity_factor r n + tax * n

open Classical in
/-- The `while months <= search_cap_years * 12` loop of the unknown-`Ti`
branch: starting from month count `months`, return the first `m ≤ B` with
`P m` (`P m` = "available corpus at `m` months meets required corpus"), or
`none` when the loop falls through past the bound. -/
noncomputable def searchLoop (P : ℕ → Prop) (B : ℕ) (months : ℕ) : Option ℕ :=
  if B < months then none
  else if P months then some months
  else searchLoop P B (months + 1)
termination_by B + 1 - months
decreasing_by omega

open Classical in
/-- Number of loop-body evaluations (tests of `P`) performed by `searchLoop`
from month `months`; same recursion structure as `searchLoop`. -/
noncomputable def searchSteps (P : ℕ → Prop) (B : ℕ) (months : ℕ) : ℕ :=
  if B < months then 0
  else if P months then 1
  else 1 + searchSteps P B (months + 1)
termination_by B + 1 - months
decreasing_by omega

/-- The tail of `solve_swp`: `n_final = int(round(Ti * 12))`, recompute the
post-tax corpus, and return the dict. -/
noncomputable def mkResult (i mi ti r tax : ℝ) : Except SwpError SwpResult :=
  .ok ⟨i, mi, ti, corpus_after_tax i mi r ((round (ti * 12)).toNat) tax⟩

/-- `solve_swp`.  The Python code first raises `ValueError` unless exactly one
of `(Ti, Mi, I)` is `None`, then dispatches `if I is None / elif Mi is None /
else`; the total `match` below is equivalent: the three singleton-`None`
shapes reach their branch and every other shape is the `ValueError`. -/
noncomputable def solve_swp (A_today Tw inflation_rate annual_return tax_rate : ℝ)
    (Ti Mi I : Option ℝ) (search_cap_years : ℕ) : Except SwpError SwpResult :=
  match Ti, Mi, I with
  | some ti, some mi, none =>
    let r := gross_monthly annual_return
    let n := (round (ti * 12)).toNat
    let Cn := corpus_needed_for_swp A_today ti Tw inflation_rate r
    mkResult ((Cn - A_M tax_rate r n * mi) / A_L tax_rate r n) mi ti r tax_rate
  | some ti, none, some i =>
    let r := gross_monthly annual_return
    let n := (round (ti * 12)).toNat
    let Cn := corpus_needed_for_swp A_today ti Tw inflation_rate r
    mkResult i ((Cn - A_L tax_rate r n * i) / A_M tax_rate r n) ti r tax_rate
  | none, some mi, some i =>
    let r := gross_monthly annual_return
    match searchLoop
        (fun m => corpus_needed_for_swp A_today ((m : ℝ) / 12) Tw inflation_rate r ≤
          corpus_after_tax i mi r m tax_rate)
        (search_cap_years * 12) 0 with
    | some m => mkResult i mi ((m : ℝ) / 12) r tax_rate
    | none => .error .goalUnreachable
  | _, _, _ => .error .invalidInput

/-- `[Ti, Mi, I].count(None)`. -/
def unknownCount (Ti Mi I : Option ℝ) : ℕ :=
  [Ti, Mi, I].countP fun x => x.isNone

/-! ## Basic unfolding lemmas -/

lemma corpus_needed_def (A Ti Tw infl r : ℝ) :
    corpus_needed_for_swp A Ti Tw infl r =
      if |r - ((1 + infl) ^ ((1 : ℝ) / 12) - 1)| < 1e-12 then
        A * (1 + infl) ^ Ti * (round (Tw * 12) : ℤ) / (1 + r)
      else
        A * (1 + infl) ^ Ti *
          (1 - ((1 + ((1 + infl) ^ ((1 : ℝ) / 12) - 1)) / (1 + r)) ^ (round (Tw * 12))) /
          (r - ((1 + infl) ^ ((1 : ℝ) / 12) - 1)) := rfl

lemma fv_before_tax_factor (L M r : ℝ) (n : ℕ) :
    fv_before_tax L M r n = L * (1 + r) ^ n + M * annuity_factor r n := by
  unfold fv_before_tax annuity_factor
  split_ifs with h
  · ring
  · rfl

lemma gross_monthly_zero : gross_monthly 0 = 0 := by
  unfold gross_monthly
  norm_num [Real.one_rpow]

lemma gross_monthly_gt_neg_one {a : ℝ} (ha : -1 < a) : -1 < gross_monthly a := by
  unfold gross_monthly
  have h : (0 : ℝ) < (1 + a) ^ ((1 : ℝ) / 12) :=
    Real.rpow_pos_of_pos (by linarith) _
  linarith

lemma solve_swp_unknown_I (A Tw infl a tax mi ti : ℝ) (cap : ℕ) :
    solve_swp A Tw infl a tax (some ti) (some mi) none cap =
      mkResult
        ((corpus_needed_for_swp A ti Tw infl (gross_monthly a) -
            A_M tax (gross_monthly a) ((round (ti * 12)).toNat) * mi) /
          A_L tax (gross_monthly a) ((round (ti * 12)).toNat))
        mi ti (gross_monthly a) tax := rfl

lemma solve_swp_unknown_Mi (A Tw infl a tax i ti : ℝ) (cap : ℕ) :
    solve_swp A Tw infl a tax (some ti) none (some i) cap =
      mkResult i
        ((corpus_needed_for_swp A ti Tw infl (gross_monthly a) -
            A_L tax (gross_monthly a) ((round (ti * 12)).toNat) * i) /
          A_M tax (gross_monthly a) ((round (ti * 12)).toNat))
        ti (gross_monthly a) tax := rfl

lemma solve_swp_unknown_Ti (A Tw infl a tax i mi : ℝ) (cap : ℕ) :
    solve_swp A Tw infl a tax none (some mi) (some i) cap =
      match searchLoop
          (fun m => corpus_needed_for_swp A ((m : ℝ) / 12) Tw infl (gross_monthly a) ≤
            corpus_after_tax i mi (gross_monthly a) m tax)
          (cap * 12) 0 with
      | some m => mkResult i mi ((m : ℝ) / 12) (gross_monthly a) tax
      | none => .error .goalUnreachable := rfl

lemma mkResult_nat (i mi r tax : ℝ) (m : ℕ) :
    mkResult i mi ((m : ℝ) / 12) r tax =
      .ok ⟨i, mi, (m : ℝ) / 12, corpus_after_tax i mi r m tax⟩ := by
  unfold mkResult
  have h : ((m : ℝ) / 12) * 12 = (m : ℝ) := div_mul_cancel₀ _ (by norm_num)
  rw [h]
  norm_num

/-! ## Claims C6, C7, C8 (formula-level functional correctness) -/

/-- C6: the corpus-requirement engine returns, with
`g = (1+inflation_rate)^(1/12) - 1`, `M = round(Tw*12)` and
`W0 = A_today*(1+inflation_rate)^Ti`: `W0*M/(1+r_month)` when
`|r_month - g| < 1e-12`, and `W0*(1 - k^M)/(r_month - g)` with
`k = (1+g)/(1+r_month)` otherwise.  Stated for all real inputs, which
includes the claim's domain `A_today > 0`, `Ti ≥ 0`, `Tw > 0`. -/
theorem C6_required_corpus_formula (A Ti Tw infl r : ℝ) :
    corpus_needed_for_swp A Ti Tw infl r =
      if |r - ((1 + infl) ^ ((1 : ℝ) / 12) - 1)| < 1e-12 then
        (A * (1 + infl) ^ Ti) * (round (Tw * 12) : ℤ) / (1 + r)
      else
        (A * (1 + infl) ^ Ti) *
          (1 - ((1 + ((1 + infl) ^ ((1 : ℝ) / 12) - 1)) / (1 + r)) ^ (round (Tw * 12))) /
          (r - ((1 + infl) ^ ((1 : ℝ) / 12) - 1)) := rfl

/-- C7: the post-tax corpus engine returns `fv - tax * max(fv - (L + M*n), 0)`
where `fv` is the before-tax future value, and when the gain is negative no
tax is subtracted, so the result equals `fv`. -/
theorem C7_post_tax_corpus (L M r tax : ℝ) (n : ℕ) :
    corpus_after_tax L M r n tax =
      fv_before_tax L M r n -
        tax * max (fv_before_tax L M r n - (L + M * n)) 0 ∧
    (fv_before_tax L M r n - (L + M * n) < 0 →
      corpus_after_tax L M r n tax = fv_before_tax L M r n) := by
  constructor
  · unfold corpus_after_tax
    ring
  · intro h
    unfold corpus_after_tax
    rw [max_eq_right h.le]
    ring

/-- Witness for C7: at `L = 1, M = 0, r = -1/2, n = 1, tax = 1/2` the gain is
`-1/2 < 0` and the post-tax corpus equals the before-tax future value. -/
theorem C7_post_tax_corpus_witness :
    corpus_after_tax 1 0 (-(1/2)) 1 (1/2) = fv_before_tax 1 0 (-(1/2)) 1 := by
  refine (C7_post_tax_corpus 1 0 (-(1/2)) (1/2) 1).2 ?_
  have habs : |(-(1/2) : ℝ)| = 1/2 := by
    rw [abs_neg]
    exact abs_of_pos (by norm_num)
  unfold fv_before_tax
  rw [if_pos (by rw [habs]; norm_num)]
  norm_num

/-- C8: the future-value engine returns `L*(1+r)^n + M*((1+r)^n - 1)/r` when
`|r|` exceeds the `1e-12` threshold and `L*(1+r)^n + M*n` otherwise; and with
`annual_return = 0` (monthly rate `gross_monthly 0 = 0`) it returns exactly
`L + M*n`. -/
theorem C8_future_value (L M r : ℝ) (n : ℕ) :
    (|r| > 1e-12 →
      fv_before_tax L M r n = L * (1 + r) ^ n + M * ((1 + r) ^ n - 1) / r) ∧
    (¬ |r| > 1e-12 → fv_before_tax L M r n = L * (1 + r) ^ n + M * n) ∧
    fv_before_tax L M (gross_monthly 0) n = L + M * n := by
  refine ⟨fun h => ?_, fun h => ?_, ?_⟩
  · unfold fv_before_tax
    rw [if_pos h]
  · unfold fv_before_tax
    rw [if_neg h]
  · rw [gross_monthly_zero]
    unfold fv_before_tax
    rw [if_neg (by norm_num)]
    norm_num

/-- Witness for C8: both threshold branches evaluated at concrete inputs. -/
theorem C8_future_value_witness :
    fv_before_tax 2 3 1 2 = 2 * (1 + 1) ^ (2 : ℕ) + 3 * ((1 + 1) ^ (2 : ℕ) - 1) / 1 ∧
    fv_before_tax 2 3 0 2 = 2 * (1 + 0) ^ (2 : ℕ) + 3 * (2 : ℕ) := by
  constructor
  · exact (C8_future_value 2 3 1 2).1 (by norm_num)
  · exact (C8_future_value 2 3 0 2).2.1 (by norm_num)

/-! ## Claim C9 (invalid-input error) -/

/-- C9: `solve_swp` returns the invalid-input error exactly when the number of
unset values among `(Ti, Mi, I)` differs from 1, and produces no result in
that case.  (The source performs the count check as its first statement,
before the rate conversion and any corpus computation; in this pure embedding
only the input-output behaviour is observable, and the iff captures it.) -/
theorem C9_invalid_unknown_count (A Tw infl a tax : ℝ) (Ti Mi I : Option ℝ)
    (cap : ℕ) :
    solve_swp A Tw infl a tax Ti Mi I cap = .error .invalidInput ↔
      unknownCount Ti Mi I ≠ 1 := by
  rcases Ti with _ | ti <;> rcases Mi with _ | mi <;> rcases I with _ | i
  · simp [solve_swp, unknownCount]
  · simp [solve_swp, unknownCount]
  · simp [solve_swp, unknownCount]
  · rw [solve_swp_unknown_Ti]
    rcases searchLoop
        (fun m => corpus_needed_for_swp A ((m : ℝ) / 12) Tw infl (gross_monthly a) ≤
          corpus_after_tax i mi (gross_monthly a) m tax)
        (cap * 12) 0 with _ | m
    · simp [unknownCount]
    · simp [mkResult, unknownCount]
  · simp [solve_swp, unknownCount]
  · rw [solve_swp_unknown_Mi]
    simp [mkResult, unknownCount]
  · rw [solve_swp_unknown_I]
    simp [mkResult, unknownCount]
  · simp [solve_swp, unknownCount]

/-! ## Search-loop characterisation -/

lemma searchLoop_eq_none (P : ℕ → Prop) (B : ℕ) :
    ∀ s, (∀ m, s ≤ m → m ≤ B → ¬ P m) → searchLoop P B s = none := by
  have key : ∀ k s, B + 1 - s ≤ k → (∀ m, s ≤ m → m ≤ B → ¬ P m) →
      searchLoop P B s = none := by
    intro k
    induction k with
    | zero =>
      intro s hk h
      rw [searchLoop]
      rw [if_pos (by omega)]
    | succ k ih =>
      intro s hk h
      rw [searchLoop]
      by_cases hB : B < s
      · rw [if_pos hB]
      · rw [if_neg hB, if_neg (h s le_rfl (by omega))]
        exact ih (s + 1) (by omega) fun m hm hmB => h m (by omega) hmB
  intro s h
  exact key (B + 1 - s) s le_rfl h

lemma searchLoop_eq_some (P : ℕ → Prop) (B : ℕ) :
    ∀ s m, s ≤ m → m ≤ B → P m → (∀ j, s ≤ j → j < m → ¬ P j) →
      searchLoop P B s = some m := by
  have key : ∀ k s m, m - s ≤ k → s ≤ m → m ≤ B → P m →
      (∀ j, s ≤ j → j < m → ¬ P j) → searchLoop P B s = some m := by
    intro k
    induction k with
    | zero =>
      intro s m hk hsm hmB hP hmin
      have hsm' : s = m := by omega
      subst hsm'
      rw [searchLoop, if_neg (by omega), if_pos hP]
    | succ k ih =>
      intro s m hk hsm hmB hP hmin
      by_cases hsm' : s = m
      · subst hsm'
        rw [searchLoop, if_neg (by omega), if_pos hP]
      · rw [searchLoop, if_neg (by omega),
          if_neg (hmin s le_rfl (by omega))]
        exact ih (s + 1) m (by omega) (by omega) hmB hP
          fun j hj hj' => hmin j (by omega) hj'
  intro s m hsm hmB hP hmin
  exact key (m - s) s m le_rfl hsm hmB hP hmin

lemma searchSteps_le (P : ℕ → Prop) (B : ℕ) :
    ∀ s, searchSteps P B s ≤ B + 1 - s := by
  have key : ∀ k s, B + 1 - s ≤ k → searchSteps P B s ≤ B + 1 - s := by
    intro k
    induction k with
    | zero =>
      intro s hk
      rw [searchSteps, if_pos (by omega)]
      omega
    | succ k ih =>
      intro s hk
      rw [searchSteps]
      by_cases hB : B < s
      · rw [if_pos hB]
        omega
      · rw [if_neg hB]
        by_cases hP : P s
        · rw [if_pos hP]
          omega
        · rw [if_neg hP]
          have := ih (s + 1) (by omega)
          omega
  intro s
  exact key (B + 1 - s) s le_rfl

/-! ## Claim C1 (unknown-`Ti` forward search) -/

/-- C1: with `Ti` unset, `solve_swp` returns `Ti = m/12` for the smallest
month count `m` in `[0, search_cap_years*12]` at which the after-tax corpus
(`_corpus_after_tax` with `n = m`) meets or exceeds the required corpus
(`_corpus_needed_for_swp` with `Ti = m/12`); if no month in that range
qualifies, it returns the goal-unreachable error.  The hypotheses are the
interface preconditions of the claim. -/
theorem C1_first_crossing_month (A Tw infl a tax i mi : ℝ) (cap : ℕ)
    (hA : 0 < A) (hTw : 0 < Tw) (ht0 : 0 ≤ tax) (ht1 : tax ≤ 1)
    (hcap : 0 < cap) (hi : 0 ≤ i) (hmi : 0 ≤ mi) :
    (∀ m : ℕ, m ≤ cap * 12 →
      corpus_needed_for_swp A ((m : ℝ) / 12) Tw infl (gross_monthly a) ≤
        corpus_after_tax i mi (gross_monthly a) m tax →
      (∀ j : ℕ, j < m →
        ¬ (corpus_needed_for_swp A ((j : ℝ) / 12) Tw infl (gross_monthly a) ≤
            corpus_after_tax i mi (gross_monthly a) j tax)) →
      solve_swp A Tw infl a tax none (some mi) (some i) cap =
        .ok ⟨i, mi, (m : ℝ) / 12,
          corpus_after_tax i mi (gross_monthly a) m tax⟩) ∧
    ((∀ m : ℕ, m ≤ cap * 12 →
        ¬ (corpus_needed_for_swp A ((m : ℝ) / 12) Tw infl (gross_monthly a) ≤
            corpus_after_tax i mi (gross_monthly a) m tax)) →
      solve_swp A Tw infl a tax none (some mi) (some i) cap =
        .error .goalUnreachable) := by
  constructor
  · intro m hm hP hmin
    rw [solve_swp_unknown_Ti,
      searchLoop_eq_some _ _ 0 m (Nat.zero_le m) hm hP
        (fun j _ hj => hmin j hj)]
    exact mkResult_nat i mi (gross_monthly a) tax m
  · intro hnone
    rw [solve_swp_unknown_Ti,
      searchLoop_eq_none _ _ 0 (fun m _ hmB => hnone m hmB)]

/-! Evaluation helpers for zero rates (used by several witnesses). -/

lemma fv_before_tax_zero_rate (L M : ℝ) (n : ℕ) :
    fv_before_tax L M 0 n = L + M * n := by
  unfold fv_before_tax
  rw [if_neg (by norm_num)]
  norm_num

lemma corpus_after_tax_zero_rate (L M tax : ℝ) (n : ℕ) :
    corpus_after_tax L M 0 n tax = L + M * n := by
  unfold corpus_after_tax
  rw [fv_before_tax_zero_rate]
  simp

lemma corpus_needed_zero_zero (A Ti Tw : ℝ) :
    corpus_needed_for_swp A Ti Tw 0 0 = A * (round (Tw * 12) : ℤ) := by
  rw [corpus_needed_def]
  have hg0 : (1 + (0:ℝ)) ^ ((1:ℝ)/12) - 1 = 0 := by
    norm_num [Real.one_rpow]
  rw [hg0]
  rw [if_pos (by norm_num)]
  have hW : ((1:ℝ) + 0) ^ Ti = 1 := by
    norm_num [Real.one_rpow]
  rw [hW]
  norm_num

/-- Witness for C1: with zero rates, zero lump sum, zero contribution and a
one-month withdrawal horizon, no month within a 1-year cap reaches the
required corpus, so the goal-unreachable error is returned. -/
theorem C1_first_crossing_month_witness :
    solve_swp 1 (1/12) 0 0 0 none (some 0) (some 0) 1 =
      .error .goalUnreachable := by
  refine (C1_first_crossing_month 1 (1/12) 0 0 0 0 0 1
    (by norm_num) (by norm_num) le_rfl (by norm_num) (by norm_num)
    le_rfl le_rfl).2 ?_
  intro m hm hP
  rw [gross_monthly_zero, corpus_needed_zero_zero,
    corpus_after_tax_zero_rate] at hP
  have h12 : ((1:ℝ)/12) * 12 = 1 := by norm_num
  rw [h12, round_one] at hP
  norm_num at hP

/-! ## Claim C10 (termination and iteration bound) -/

/-- C10: `solve_swp` terminates on every input.  The only loop is the
unknown-`Ti` search: it tests the corpus condition at most
`12*search_cap_years + 1` times (`searchSteps` counts the tests of the loop
body) before the branch either returns a result or the goal-unreachable
error; the unknown-`I` and unknown-`Mi` branches are loop-free closed-form
computations. -/
theorem C10_bounded_search (A Tw infl a tax ti i mi : ℝ) (cap : ℕ) :
    (∀ P : ℕ → Prop, searchSteps P (cap * 12) 0 ≤ 12 * cap + 1) ∧
    solve_swp A Tw infl a tax (some ti) (some mi) none cap =
      .ok ⟨(corpus_needed_for_swp A ti Tw infl (gross_monthly a) -
              A_M tax (gross_monthly a) ((round (ti * 12)).toNat) * mi) /
            A_L tax (gross_monthly a) ((round (ti * 12)).toNat),
          mi, ti,
          corpus_after_tax
            ((corpus_needed_for_swp A ti Tw infl (gross_monthly a) -
                A_M tax (gross_monthly a) ((round (ti * 12)).toNat) * mi) /
              A_L tax (gross_monthly a) ((round (ti * 12)).toNat))
            mi (gross_monthly a) ((round (ti * 12)).toNat) tax⟩ ∧
    solve_swp A Tw infl a tax (some ti) none (some i) cap =
      .ok ⟨i,
          (corpus_needed_for_swp A ti Tw infl (gross_monthly a) -
              A_L tax (gross_monthly a) ((round (ti * 12)).toNat) * i) /
            A_M tax (gross_monthly a) ((round (ti * 12)).toNat),
          ti,
          corpus_after_tax i
            ((corpus_needed_for_swp A ti Tw infl (gross_monthly a) -
                A_L tax (gross_monthly a) ((round (ti * 12)).toNat) * i) /
              A_M tax (gross_monthly a) ((round (ti * 12)).toNat))
            (gross_monthly a) ((round (ti * 12)).toNat) tax⟩ ∧
    ((∃ res, solve_swp A Tw infl a tax none (some mi) (some i) cap =
        .ok res) ∨
      solve_swp A Tw infl a tax none (some mi) (some i) cap =
        .error .goalUnreachable) := by
  refine ⟨fun P => ?_, rfl, rfl, ?_⟩
  · have := searchSteps_le P (cap * 12) 0
    omega
  · rcases hs : searchLoop
        (fun m => corpus_needed_for_swp A ((m : ℝ) / 12) Tw infl (gross_monthly a) ≤
          corpus_after_tax i mi (gross_monthly a) m tax)
        (cap * 12) 0 with _ | m
    · right
      rw [solve_swp_unknown_Ti, hs]
    · left
      refine ⟨⟨i, mi, (m : ℝ) / 12,
        corpus_after_tax i mi (gross_monthly a) m tax⟩, ?_⟩
      rw [solve_swp_unknown_Ti, hs]
      exact mkResult_nat i mi (gross_monthly a) tax m

/-! ## Positivity of the linear after-tax coefficients -/

lemma annuity_factor_pos {r : ℝ} (hr : -1 < r) {n : ℕ} (hn : n ≠ 0) :
    0 < annuity_factor r n := by
  unfold annuity_factor
  split_ifs with h
  · have hr0 : r ≠ 0 := by
      intro h0
      rw [h0] at h
      norm_num at h
    rcases hr0.lt_or_lt with hneg | hpos
    · have h2 : (1 + r) ^ n < 1 := pow_lt_one₀ (by linarith) (by linarith) hn
      exact div_pos_of_neg_of_neg (by linarith) hneg
    · have h2 : (1 : ℝ) < (1 + r) ^ n := one_lt_pow₀ (by linarith) hn
      exact div_pos (by linarith) hpos
  · exact_mod_cast Nat.pos_of_ne_zero hn

lemma annuity_factor_nonneg {r : ℝ} (hr : -1 < r) (n : ℕ) :
    0 ≤ annuity_factor r n := by
  rcases Nat.eq_zero_or_pos n with h0 | hpos
  · subst h0
    unfold annuity_factor
    split_ifs <;> norm_num
  · exact (annuity_factor_pos hr hpos.ne').le

lemma A_L_pos {tax r : ℝ} (ht0 : 0 ≤ tax) (ht1 : tax ≤ 1) (hr : -1 < r)
    (n : ℕ) : 0 < A_L tax r n := by
  unfold A_L
  have hG : (0 : ℝ) < (1 + r) ^ n := pow_pos (by linarith) n
  rcases eq_or_lt_of_le ht1 with h1 | h1
  · rw [h1]
    norm_num
  · have := mul_pos (by linarith : (0 : ℝ) < 1 - tax) hG
    linarith

lemma A_M_pos {tax r : ℝ} (ht0 : 0 ≤ tax) (ht1 : tax ≤ 1) (hr : -1 < r)
    {n : ℕ} (hn : n ≠ 0) : 0 < A_M tax r n := by
  unfold A_M
  have haf := annuity_factor_pos hr hn
  have hn' : (0 : ℝ) < n := by exact_mod_cast Nat.pos_of_ne_zero hn
  rcases eq_or_lt_of_le ht1 with h1 | h1
  · rw [h1]
    simpa using hn'
  · have h2 := mul_pos (by linarith : (0 : ℝ) < 1 - tax) haf
    have h3 : 0 ≤ tax * n := mul_nonneg ht0 hn'.le
    linarith

/-- When the pre-tax gain at `(L, M)` is non-negative, the post-tax corpus is
the linear combination `A_L * L + A_M * M` used by the algebraic branches. -/
lemma corpus_after_tax_linear (L M r tax : ℝ) (n : ℕ)
    (h : 0 ≤ fv_before_tax L M r n - (L + M * n)) :
    corpus_after_tax L M r n tax = A_L tax r n * L + A_M tax r n * M := by
  unfold corpus_after_tax A_L A_M
  rw [max_eq_left h, fv_before_tax_factor]
  ring

/-! More evaluation helpers -/

lemma gross_monthly_pow {b : ℝ} (hb : 0 ≤ b) :
    gross_monthly (b ^ (12 : ℕ) - 1) = b - 1 := by
  unfold gross_monthly
  have h1 : (1 : ℝ) + (b ^ (12 : ℕ) - 1) = b ^ (12 : ℕ) := by ring
  rw [h1, ← Real.rpow_natCast b 12, ← Real.rpow_mul hb]
  norm_num

lemma annuity_factor_zero_rate (n : ℕ) : annuity_factor 0 n = n := by
  unfold annuity_factor
  rw [if_neg (by norm_num)]

lemma A_L_zero_rate (tax : ℝ) (n : ℕ) : A_L tax 0 n = 1 := by
  unfold A_L
  norm_num

lemma A_M_zero_rate (tax : ℝ) (n : ℕ) : A_M tax 0 n = n := by
  unfold A_M
  rw [annuity_factor_zero_rate]
  ring

/-! ## Claim C2 (corpus consistency of the algebraic branches) -/

/-- C2 fails on the code: with `Ti = 1/12` (one month), `Tw = 1/12`, zero
inflation, annual return `1.1^12 - 1` (monthly rate `0.1`), tax `0.5` and
`Mi = 2`, the unknown-`I` branch solves `I = -20/21 < 0`; the recomputed gain
is negative, so the final recomputation taxes nothing and returns corpus
`20/21`, while the required corpus of section 4.4 is `1`.  The returned
corpus differs from the required corpus by about `0.048` — far beyond
floating-point tolerance. -/
theorem C2_consistency_counterexample :
    solve_swp (11/10) (1/12) 0 ((11/10 : ℝ) ^ (12 : ℕ) - 1) (1/2)
        (some (1/12)) (some 2) none 100 =
      .ok ⟨-(20/21), 2, 1/12, 20/21⟩ ∧
    corpus_needed_for_swp (11/10) (1/12) (1/12) 0
        (gross_monthly ((11/10 : ℝ) ^ (12 : ℕ) - 1)) = 1 ∧
    (20/21 : ℝ) ≠ 1 := by
  have hr : gross_monthly ((11/10 : ℝ) ^ (12 : ℕ) - 1) = 1/10 := by
    rw [gross_monthly_pow (by norm_num)]
    norm_num
  have h12 : ((1/12 : ℝ)) * 12 = 1 := by norm_num
  have hround : round ((1/12 : ℝ) * 12) = (1 : ℤ) := by
    rw [h12, round_one]
  have hn : ((round ((1/12 : ℝ) * 12)).toNat) = 1 := by
    rw [hround]
    rfl
  have hCn : corpus_needed_for_swp (11/10) (1/12) (1/12) 0 (1/10) = 1 := by
    rw [corpus_needed_def]
    have hg0 : (1 + (0 : ℝ)) ^ ((1 : ℝ)/12) - 1 = 0 := by
      norm_num [Real.one_rpow]
    rw [hg0, if_neg (by
      rw [show |(1/10 : ℝ) - 0| = 1/10 by
        rw [sub_zero]; exact abs_of_pos (by norm_num)]
      norm_num)]
    have hW : ((1 : ℝ) + 0) ^ ((1 : ℝ)/12) = 1 := by
      norm_num [Real.one_rpow]
    rw [hW, hround, zpow_one]
    norm_num
  have hAL : A_L (1/2) (1/10) 1 = 21/20 := by
    unfold A_L
    norm_num
  have hAM : A_M (1/2) (1/10) 1 = 1 := by
    unfold A_M annuity_factor
    rw [if_pos (by rw [abs_of_pos (show (0:ℝ) < 1/10 by norm_num)]; norm_num)]
    norm_num
  refine ⟨?_, by rw [hr]; exact hCn, by norm_num⟩
  rw [solve_swp_unknown_I, hr, hn, hCn, hAL, hAM]
  have hI : ((1 : ℝ) - 1 * 2) / (21/20) = -(20/21) := by norm_num
  rw [hI]
  unfold mkResult
  rw [hn]
  have hfv : fv_before_tax (-(20/21)) 2 (1/10) 1 = 20/21 := by
    unfold fv_before_tax
    rw [if_pos (by rw [abs_of_pos (show (0:ℝ) < 1/10 by norm_num)]; norm_num)]
    norm_num
  have hcat : corpus_after_tax (-(20/21)) 2 (1/10) 1 (1/2) = 20/21 := by
    unfold corpus_after_tax
    rw [hfv]
    rw [max_eq_right
      (by push_cast; norm_num : (20/21 : ℝ) - (-(20/21) + 2 * ((1:ℕ):ℝ)) ≤ 0)]
    norm_num
  rw [hcat]

/-- C2 (amended): for the unknown-`I` and unknown-`Mi` branches the returned
`corpus_at_retirement` equals the required corpus of section 4.4 at the given
`Ti`, exactly, PROVIDED the pre-tax gain at the resolved pair is non-negative
(the linear coefficients `A_L`/`A_M` assume it; the final recomputation
re-clamps it, which is what the counterexample exploits).  The unknown-`Mi`
branch additionally needs `round(Ti*12) ≥ 1`, else its divisor `A_M` is zero.
Hypotheses `-1 < annual_return` and `tax ∈ [0,1]` are the documented domain. -/
theorem C2_consistency_amended (A Tw infl a tax ti mi i : ℝ) (cap : ℕ)
    (ht0 : 0 ≤ tax) (ht1 : tax ≤ 1) (ha : -1 < a) :
    (∀ res : SwpResult,
      solve_swp A Tw infl a tax (some ti) (some mi) none cap = .ok res →
      0 ≤ fv_before_tax res.I res.Mi (gross_monthly a)
            ((round (ti * 12)).toNat) -
          (res.I + res.Mi * (((round (ti * 12)).toNat : ℕ) : ℝ)) →
      res.corpus_at_retirement =
        corpus_needed_for_swp A ti Tw infl (gross_monthly a)) ∧
    ((round (ti * 12)).toNat ≠ 0 →
      ∀ res : SwpResult,
        solve_swp A Tw infl a tax (some ti) none (some i) cap = .ok res →
        0 ≤ fv_before_tax res.I res.Mi (gross_monthly a)
              ((round (ti * 12)).toNat) -
            (res.I + res.Mi * (((round (ti * 12)).toNat : ℕ) : ℝ)) →
        res.corpus_at_retirement =
          corpus_needed_for_swp A ti Tw infl (gross_monthly a)) := by
  have hr := gross_monthly_gt_neg_one ha
  constructor
  · intro res hres hgain
    rw [solve_swp_unknown_I] at hres
    unfold mkResult at hres
    injection hres with hres
    subst hres
    dsimp only at hgain ⊢
    rw [corpus_after_tax_linear _ _ _ _ _ hgain]
    have hAL := (A_L_pos ht0 ht1 hr ((round (ti * 12)).toNat)).ne'
    field_simp
  · intro hn res hres hgain
    rw [solve_swp_unknown_Mi] at hres
    unfold mkResult at hres
    injection hres with hres
    subst hres
    dsimp only at hgain ⊢
    rw [corpus_after_tax_linear _ _ _ _ _ hgain]
    have hAM := (A_M_pos ht0 ht1 hr hn).ne'
    field_simp

/-- Witness for C2 (amended): at zero rates, `Ti = 1/12`, `Mi = 0`,
`tax = 1/2`, the unknown-`I` branch returns corpus `1`, which equals the
required corpus. -/
theorem C2_consistency_amended_witness :
    ((⟨1, 0, 1/12, 1⟩ : SwpResult)).corpus_at_retirement =
      corpus_needed_for_swp 1 (1/12) (1/12) 0 (gross_monthly 0) := by
  have h12 : ((1/12 : ℝ)) * 12 = 1 := by norm_num
  have hsolve : solve_swp 1 (1/12) 0 0 (1/2) (some (1/12)) (some 0) none 100 =
      .ok ⟨1, 0, 1/12, 1⟩ := by
    rw [solve_swp_unknown_I, gross_monthly_zero, corpus_needed_zero_zero,
      h12, round_one, Int.toNat_one, A_M_zero_rate, A_L_zero_rate]
    unfold mkResult
    rw [h12, round_one, Int.toNat_one, corpus_after_tax_zero_rate]
    norm_num
  have hgain : (0:ℝ) ≤ fv_before_tax 1 0 (gross_monthly 0)
      ((round ((1/12 : ℝ) * 12)).toNat) -
      (1 + 0 * (((round ((1/12 : ℝ) * 12)).toNat : ℕ) : ℝ)) := by
    rw [gross_monthly_zero, fv_before_tax_zero_rate]
    norm_num
  exact (C2_consistency_amended 1 (1/12) 0 0 (1/2) (1/12) 0 0 100
    (by norm_num) (by norm_num) (by norm_num)).1 ⟨1, 0, 1/12, 1⟩ hsolve hgain

/-! ## Claim C3 (no arithmetic failures) -/

/-- C3 fails on the code: at any admissible `Ti` with `round(Ti*12) = 0`
(e.g. `Ti = 0`) and zero annual return, the unknown-`Mi` branch divides by
`A_M = 0` — in Python a `ZeroDivisionError`, an error other than the two
documented ones.  This theorem evaluates the divisor at that input. -/
theorem C3_no_failure_counterexample :
    A_M (1/2) (gross_monthly 0) ((round ((0 : ℝ) * 12)).toNat) = 0 := by
  rw [gross_monthly_zero, show ((0:ℝ) * 12) = 0 by norm_num, round_zero,
    Int.toNat_zero, A_M_zero_rate]
  norm_num

/-- C3 (amended): on the documented domain (`annual_return > -1`,
`tax ∈ [0,1]`), every divisor `solve_swp` uses is nonzero — `A_L` always,
`1 + r_month` always, `r` and `r_month - g` under their threshold guards —
EXCEPT `A_M` in the unknown-`Mi` branch, which is nonzero only when
`round(Ti*12) ≥ 1` (i.e. `Ti ≥ 1/24`); at `round(Ti*12) = 0` that division
is undefined. -/
theorem C3_no_failure_amended (a tax ti : ℝ) (ha : -1 < a)
    (ht0 : 0 ≤ tax) (ht1 : tax ≤ 1) :
    A_L tax (gross_monthly a) ((round (ti * 12)).toNat) ≠ 0 ∧
    ((round (ti * 12)).toNat ≠ 0 →
      A_M tax (gross_monthly a) ((round (ti * 12)).toNat) ≠ 0) ∧
    1 + gross_monthly a ≠ 0 ∧
    (∀ r : ℝ, |r| > 1e-12 → r ≠ 0) ∧
    (∀ r g : ℝ, ¬ |r - g| < 1e-12 → r - g ≠ 0) := by
  have hr := gross_monthly_gt_neg_one ha
  refine ⟨(A_L_pos ht0 ht1 hr _).ne', fun hn => (A_M_pos ht0 ht1 hr hn).ne',
    by linarith, fun r h h0 => ?_, fun r g h h0 => h ?_⟩
  · rw [h0] at h
    norm_num at h
  · rw [h0]
    norm_num

/-- Witness for C3 (amended): the two coefficient divisors are nonzero at
`a = 0`, `tax = 1/2`, `Ti = 1/12`. -/
theorem C3_no_failure_amended_witness :
    A_L (1/2) (gross_monthly 0) ((round ((1/12 : ℝ) * 12)).toNat) ≠ 0 ∧
    A_M (1/2) (gross_monthly 0) ((round ((1/12 : ℝ) * 12)).toNat) ≠ 0 := by
  have h := C3_no_failure_amended 0 (1/2) (1/12) (by norm_num) (by norm_num)
    (by norm_num)
  refine ⟨h.1, h.2.1 ?_⟩
  rw [show ((1/12 : ℝ) * 12) = 1 by norm_num, round_one]
  simp

/-! ## Claim C5 (round-trip of the algebraic branches) -/

/-- C5 fails on the code at `Ti = 0` (admissible: the claim quantifies over
every `Ti ≥ 0`): the month count is `round(0*12) = 0`, so `A_M = 0`;
solving for `I` from `(Mi, Ti) = (5, 0)` gives `I = 1`, and re-solving for
`Mi` from `(I, Ti) = (1, 0)` divides by `A_M = 0` — Python raises
`ZeroDivisionError`, the total-division embedding returns `Mi = 0`;
either way the original `Mi = 5` is not returned. -/
theorem C5_roundtrip_counterexample :
    solve_swp 1 (1/12) 0 0 0 (some 0) (some 5) none 100 =
      .ok ⟨1, 5, 0, 1⟩ ∧
    solve_swp 1 (1/12) 0 0 0 (some 0) none (some 1) 100 =
      .ok ⟨1, 0, 0, 1⟩ ∧
    (0 : ℝ) ≠ 5 := by
  have h12 : ((1/12 : ℝ)) * 12 = 1 := by norm_num
  have h0 : ((0 : ℝ)) * 12 = 0 := by norm_num
  refine ⟨?_, ?_, by norm_num⟩
  · rw [solve_swp_unknown_I, gross_monthly_zero, corpus_needed_zero_zero,
      h12, round_one, h0, round_zero, Int.toNat_zero, A_M_zero_rate,
      A_L_zero_rate]
    unfold mkResult
    rw [h0, round_zero, Int.toNat_zero, corpus_after_tax_zero_rate]
    norm_num
  · rw [solve_swp_unknown_Mi, gross_monthly_zero, corpus_needed_zero_zero,
      h12, round_one, h0, round_zero, Int.toNat_zero, A_M_zero_rate,
      A_L_zero_rate]
    unfold mkResult
    rw [h0, round_zero, Int.toNat_zero, corpus_after_tax_zero_rate]
    norm_num

/-- C5 (amended): the round-trip holds exactly, in both directions, whenever
`round(Ti*12) ≥ 1` (so that the divisor `A_M` is nonzero) on the documented
domain `annual_return > -1`, `tax ∈ [0,1]`. -/
theorem C5_roundtrip_amended (A Tw infl a tax ti mi i : ℝ) (cap : ℕ)
    (ht0 : 0 ≤ tax) (ht1 : tax ≤ 1) (ha : -1 < a)
    (hn : (round (ti * 12)).toNat ≠ 0) :
    (∀ res res' : SwpResult,
      solve_swp A Tw infl a tax (some ti) (some mi) none cap = .ok res →
      solve_swp A Tw infl a tax (some ti) none (some res.I) cap = .ok res' →
      res'.Mi = mi) ∧
    (∀ res res' : SwpResult,
      solve_swp A Tw infl a tax (some ti) none (some i) cap = .ok res →
      solve_swp A Tw infl a tax (some ti) (some res.Mi) none cap = .ok res' →
      res'.I = i) := by
  have hr := gross_monthly_gt_neg_one ha
  have hAL := (A_L_pos ht0 ht1 hr ((round (ti * 12)).toNat)).ne'
  have hAM := (A_M_pos ht0 ht1 hr hn).ne'
  constructor
  · intro res res' h1 h2
    rw [solve_swp_unknown_I] at h1
    unfold mkResult at h1
    injection h1 with h1
    subst h1
    rw [solve_swp_unknown_Mi] at h2
    unfold mkResult at h2
    injection h2 with h2
    subst h2
    dsimp only
    field_simp
  · intro res res' h1 h2
    rw [solve_swp_unknown_Mi] at h1
    unfold mkResult at h1
    injection h1 with h1
    subst h1
    rw [solve_swp_unknown_I] at h2
    unfold mkResult at h2
    injection h2 with h2
    subst h2
    dsimp only
    field_simp

/-- Witness for C5 (amended): at zero rates, `Ti = 1/12`, `Mi = 5`, solving
for `I` gives `-4` and re-solving for `Mi` returns `5`. -/
theorem C5_roundtrip_amended_witness :
    ((⟨-4, 5, 1/12, 1⟩ : SwpResult)).Mi = 5 := by
  have h12 : ((1/12 : ℝ)) * 12 = 1 := by norm_num
  have hs1 : solve_swp 1 (1/12) 0 0 0 (some (1/12)) (some 5) none 100 =
      .ok ⟨-4, 5, 1/12, 1⟩ := by
    rw [solve_swp_unknown_I, gross_monthly_zero, corpus_needed_zero_zero,
      h12, round_one, Int.toNat_one, A_M_zero_rate, A_L_zero_rate]
    unfold mkResult
    rw [h12, round_one, Int.toNat_one, corpus_after_tax_zero_rate]
    norm_num
  have hs2 : solve_swp 1 (1/12) 0 0 0 (some (1/12)) none (some (-4)) 100 =
      .ok ⟨-4, 5, 1/12, 1⟩ := by
    rw [solve_swp_unknown_Mi, gross_monthly_zero, corpus_needed_zero_zero,
      h12, round_one, Int.toNat_one, A_M_zero_rate, A_L_zero_rate]
    unfold mkResult
    rw [h12, round_one, Int.toNat_one, corpus_after_tax_zero_rate]
    norm_num
  exact (C5_roundtrip_amended 1 (1/12) 0 0 0 (1/12) 5 0 100
    (by norm_num) (by norm_num) (by norm_num)
    (by rw [h12, round_one]; simp)).1
    ⟨-4, 5, 1/12, 1⟩ ⟨-4, 5, 1/12, 1⟩ hs1 hs2

/-! ## Claim C4 (monotonicity) -/

lemma round_eval (x : ℝ) (z : ℤ) (h1 : (z : ℝ) ≤ x + 1/2)
    (h2 : x + 1/2 < z + 1) : round x = z := by
  rw [round_eq]
  exact Int.floor_eq_iff.mpr ⟨h1, h2⟩

lemma round_mono' {x y : ℝ} (h : x ≤ y) : round x ≤ round y := by
  rw [round_eq, round_eq]
  exact Int.floor_mono (by linarith)

lemma g_pos {infl : ℝ} (h : 0 < infl) :
    0 < (1 + infl) ^ ((1 : ℝ)/12) - 1 := by
  have h1 : (1 : ℝ) < (1 + infl) ^ ((1 : ℝ)/12) :=
    (Real.one_lt_rpow_iff_of_pos (by linarith)).2
      (Or.inl ⟨by linarith, by norm_num⟩)
  linarith

lemma factor_core_pos {g r : ℝ} {M : ℤ} (hg : 0 < g) (hr : -1 < r)
    (hM : 1 ≤ M) :
    0 < (if |r - g| < 1e-12 then (M : ℝ)/(1 + r)
         else (1 - ((1 + g)/(1 + r)) ^ M)/(r - g)) := by
  have h1r : (0 : ℝ) < 1 + r := by linarith
  have h1g : (0 : ℝ) < 1 + g := by linarith
  split_ifs with hband
  · have hM' : (1 : ℝ) ≤ (M : ℝ) := by exact_mod_cast hM
    exact div_pos (by linarith) h1r
  · have hk : (0 : ℝ) < (1 + g)/(1 + r) := div_pos h1g h1r
    have hne : r ≠ g := by
      intro h0
      apply hband
      rw [h0, sub_self, abs_zero]
      norm_num
    have hM0 : (0 : ℝ) < ((M : ℤ) : ℝ) := by
      exact_mod_cast (by omega : (0 : ℤ) < M)
    rcases hne.lt_or_lt with hlt | hgt
    · have hk1 : 1 < (1 + g)/(1 + r) := (one_lt_div h1r).2 (by linarith)
      have hkM : 1 < ((1 + g)/(1 + r)) ^ M := by
        rw [← Real.rpow_intCast ((1 + g)/(1 + r)) M]
        exact (Real.one_lt_rpow_iff_of_pos hk).2 (Or.inl ⟨hk1, hM0⟩)
      exact div_pos_of_neg_of_neg (by linarith) (by linarith)
    · have hk1 : (1 + g)/(1 + r) < 1 := (div_lt_one h1r).2 (by linarith)
      have hkM : ((1 + g)/(1 + r)) ^ M < 1 := by
        rw [← Real.rpow_intCast ((1 + g)/(1 + r)) M]
        exact Real.rpow_lt_one hk.le hk1 hM0
      exact div_pos (by linarith) (by linarith)

lemma factor_core_mono {g r : ℝ} {M M' : ℤ} (hg : 0 < g) (hr : -1 < r)
    (hMM : M ≤ M') :
    (if |r - g| < 1e-12 then (M : ℝ)/(1 + r)
      else (1 - ((1 + g)/(1 + r)) ^ M)/(r - g)) ≤
    (if |r - g| < 1e-12 then (M' : ℝ)/(1 + r)
      else (1 - ((1 + g)/(1 + r)) ^ M')/(r - g)) := by
  have h1r : (0 : ℝ) < 1 + r := by linarith
  have h1g : (0 : ℝ) < 1 + g := by linarith
  split_ifs with hband
  · exact (div_le_div_iff_of_pos_right h1r).2 (by exact_mod_cast hMM)
  · have hk : (0 : ℝ) < (1 + g)/(1 + r) := div_pos h1g h1r
    have hne : r ≠ g := by
      intro h0
      apply hband
      rw [h0, sub_self, abs_zero]
      norm_num
    have hMM' : ((M : ℤ) : ℝ) ≤ ((M' : ℤ) : ℝ) := by exact_mod_cast hMM
    rcases hne.lt_or_lt with hlt | hgt
    · have hk1 : 1 ≤ (1 + g)/(1 + r) :=
        le_of_lt ((one_lt_div h1r).2 (by linarith))
      have hkM : ((1 + g)/(1 + r)) ^ M ≤ ((1 + g)/(1 + r)) ^ M' := by
        rw [← Real.rpow_intCast _ M, ← Real.rpow_intCast _ M']
        exact Real.rpow_le_rpow_of_exponent_le hk1 hMM'
      have e : ∀ x : ℝ, (1 - x)/(r - g) = (x - 1)/(g - r) := by
        intro x
        rw [show (1 - x) = -(x - 1) by ring, show (r - g) = -(g - r) by ring,
          neg_div_neg_eq]
      rw [e, e]
      exact (div_le_div_iff_of_pos_right (by linarith)).2 (by linarith)
    · have hk1 : (1 + g)/(1 + r) ≤ 1 :=
        le_of_lt ((div_lt_one h1r).2 (by linarith))
      have hkM : ((1 + g)/(1 + r)) ^ M' ≤ ((1 + g)/(1 + r)) ^ M := by
        rw [← Real.rpow_intCast _ M, ← Real.rpow_intCast _ M']
        exact Real.rpow_le_rpow_of_exponent_ge hk hk1 hMM'
      exact (div_le_div_iff_of_pos_right (by linarith)).2 (by linarith)

/-- The factor multiplying `W0` in `_corpus_needed_for_swp` (a proof device:
`corpus_needed_for_swp = W0 * swpFactor`). -/
noncomputable def swpFactor (Tw infl r : ℝ) : ℝ :=
  if |r - ((1 + infl) ^ ((1 : ℝ)/12) - 1)| < 1e-12 then
    ((round (Tw * 12) : ℤ) : ℝ) / (1 + r)
  else
    (1 - ((1 + ((1 + infl) ^ ((1 : ℝ)/12) - 1)) / (1 + r)) ^ (round (Tw * 12))) /
      (r - ((1 + infl) ^ ((1 : ℝ)/12) - 1))

lemma corpus_needed_factor (A Ti Tw infl r : ℝ) :
    corpus_needed_for_swp A Ti Tw infl r =
      A * (1 + infl) ^ Ti * swpFactor Tw infl r := by
  rw [corpus_needed_def]
  unfold swpFactor
  split_ifs with h
  · rw [mul_div_assoc]
  · rw [mul_div_assoc]

lemma swpFactor_pos {Tw infl r : ℝ} (hinfl : 0 < infl) (hr : -1 < r)
    (hM : 1 ≤ round (Tw * 12)) : 0 < swpFactor Tw infl r := by
  unfold swpFactor
  exact factor_core_pos (g_pos hinfl) hr hM

lemma swpFactor_mono {Tw Tw' infl r : ℝ} (hinfl : 0 < infl) (hr : -1 < r)
    (h : Tw ≤ Tw') : swpFactor Tw infl r ≤ swpFactor Tw' infl r := by
  unfold swpFactor
  exact factor_core_mono (g_pos hinfl) hr
    (round_mono' (mul_le_mul_of_nonneg_right h (by norm_num)))

/-- The post-tax corpus is the minimum of the before-tax future value and the
taxed linear combination; this makes its monotonicity transparent. -/
lemma corpus_after_tax_eq_min (L M r tax : ℝ) (n : ℕ) (ht0 : 0 ≤ tax) :
    corpus_after_tax L M r n tax =
      min (fv_before_tax L M r n)
        ((1 - tax) * fv_before_tax L M r n + tax * (L + M * n)) := by
  unfold corpus_after_tax
  rcases le_total (L + M * n) (fv_before_tax L M r n) with h | h
  · have hmul := mul_le_mul_of_nonneg_left h ht0
    rw [max_eq_left (by linarith), min_eq_right (by linarith)]
    ring
  · have hmul := mul_le_mul_of_nonneg_left h ht0
    rw [max_eq_right (by linarith), min_eq_left (by linarith)]
    ring

lemma fv_before_tax_mono_L {L L' : ℝ} (M r : ℝ) (n : ℕ) (hr : -1 ≤ r)
    (h : L ≤ L') : fv_before_tax L M r n ≤ fv_before_tax L' M r n := by
  unfold fv_before_tax
  have hG : (0 : ℝ) ≤ (1 + r) ^ n := pow_nonneg (by linarith) n
  exact add_le_add_right (mul_le_mul_of_nonneg_right h hG) _

lemma fv_before_tax_mono_M (L : ℝ) {M M' : ℝ} (r : ℝ) (n : ℕ) (hr : -1 < r)
    (h : M ≤ M') : fv_before_tax L M r n ≤ fv_before_tax L M' r n := by
  rw [fv_before_tax_factor, fv_before_tax_factor]
  exact add_le_add_left
    (mul_le_mul_of_nonneg_right h (annuity_factor_nonneg hr n)) _

/-- C4 fails on the code as stated: the required corpus is NOT strictly
increasing in `Tw`, because `Tw` enters only through the month count
`round(Tw*12)` — with `inflation_rate = 7% > 0`, increasing `Tw` from `1` to
`1.01` leaves the required corpus unchanged. -/
theorem C4_monotonicity_counterexample :
    corpus_needed_for_swp 1 0 1 (7/100) (1/100) =
      corpus_needed_for_swp 1 0 (101/100) (7/100) (1/100) ∧
    (1 : ℝ) < 101/100 ∧ (0 : ℝ) < 7/100 := by
  have h1 : round ((1 : ℝ) * 12) = (12 : ℤ) := by
    apply round_eval <;> norm_num
  have h2 : round ((101/100 : ℝ) * 12) = (12 : ℤ) := by
    apply round_eval <;> norm_num
  refine ⟨?_, by norm_num, by norm_num⟩
  rw [corpus_needed_def, corpus_needed_def, h1, h2]

/-- C4 (amended): with `inflation_rate > 0`, `-1 < r_month` and
`round(Tw*12) ≥ 1`, the required corpus is strictly increasing in `A_today`
and in `Ti`, and non-decreasing (not strictly) in `Tw`; with `-1 < r` and
`tax ∈ [0,1]`, the available corpus is non-decreasing in `L` and in `M`. -/
theorem C4_monotonicity_amended (A Ti Tw infl r tax L M : ℝ) (n : ℕ)
    (hinfl : 0 < infl) (hr : -1 < r) (hA : 0 < A)
    (hM12 : 1 ≤ round (Tw * 12)) (ht0 : 0 ≤ tax) (ht1 : tax ≤ 1) :
    (∀ A', A < A' →
      corpus_needed_for_swp A Ti Tw infl r <
        corpus_needed_for_swp A' Ti Tw infl r) ∧
    (∀ Ti', Ti < Ti' →
      corpus_needed_for_swp A Ti Tw infl r <
        corpus_needed_for_swp A Ti' Tw infl r) ∧
    (∀ Tw', Tw ≤ Tw' →
      corpus_needed_for_swp A Ti Tw infl r ≤
        corpus_needed_for_swp A Ti Tw' infl r) ∧
    (∀ L', L ≤ L' →
      corpus_after_tax L M r n tax ≤ corpus_after_tax L' M r n tax) ∧
    (∀ M', M ≤ M' →
      corpus_after_tax L M r n tax ≤ corpus_after_tax L M' r n tax) := by
  have hF := swpFactor_pos hinfl hr hM12
  have hTi := Real.rpow_pos_of_pos (show (0 : ℝ) < 1 + infl by linarith) Ti
  refine ⟨fun A' hAA => ?_, fun Ti' hTT => ?_, fun Tw' hTw => ?_,
    fun L' hL => ?_, fun M' hM => ?_⟩
  · rw [corpus_needed_factor, corpus_needed_factor]
    exact mul_lt_mul_of_pos_right (mul_lt_mul_of_pos_right hAA hTi) hF
  · rw [corpus_needed_factor, corpus_needed_factor]
    have hlt : (1 + infl) ^ Ti < (1 + infl) ^ Ti' :=
      (Real.rpow_lt_rpow_left_iff (by linarith : (1 : ℝ) < 1 + infl)).2 hTT
    exact mul_lt_mul_of_pos_right (mul_lt_mul_of_pos_left hlt hA) hF
  · rw [corpus_needed_factor, corpus_needed_factor]
    exact mul_le_mul_of_nonneg_left (swpFactor_mono hinfl hr hTw)
      (mul_nonneg hA.le hTi.le)
  · rw [corpus_after_tax_eq_min _ _ _ _ _ ht0,
      corpus_after_tax_eq_min _ _ _ _ _ ht0]
    have h1 := fv_before_tax_mono_L M r n hr.le hL
    refine min_le_min h1 ?_
    have h2 : L + M * (n : ℝ) ≤ L' + M * (n : ℝ) := by linarith
    exact add_le_add (mul_le_mul_of_nonneg_left h1 (by linarith))
      (mul_le_mul_of_nonneg_left h2 ht0)
  · rw [corpus_after_tax_eq_min _ _ _ _ _ ht0,
      corpus_after_tax_eq_min _ _ _ _ _ ht0]
    have h1 := fv_before_tax_mono_M L r n hr hM
    refine min_le_min h1 ?_
    have h2 : L + M * (n : ℝ) ≤ L + M' * (n : ℝ) := by
      have := mul_le_mul_of_nonneg_right hM (Nat.cast_nonneg (α := ℝ) n)
      linarith
    exact add_le_add (mul_le_mul_of_nonneg_left h1 (by linarith))
      (mul_le_mul_of_nonneg_left h2 ht0)

/-- Witness for C4 (amended): all five monotonicity statements at concrete
inputs (`infl = 7%`, `r = 1%`, `Tw = 1` so `round(Tw*12) = 12 ≥ 1`). -/
theorem C4_monotonicity_amended_witness :
    corpus_needed_for_swp 1 0 1 (7/100) (1/100) <
      corpus_needed_for_swp 2 0 1 (7/100) (1/100) ∧
    corpus_needed_for_swp 1 0 1 (7/100) (1/100) <
      corpus_needed_for_swp 1 1 1 (7/100) (1/100) ∧
    corpus_needed_for_swp 1 0 1 (7/100) (1/100) ≤
      corpus_needed_for_swp 1 0 2 (7/100) (1/100) ∧
    corpus_after_tax 0 0 (1/100) 1 (1/2) ≤
      corpus_after_tax 1 0 (1/100) 1 (1/2) ∧
    corpus_after_tax 0 0 (1/100) 1 (1/2) ≤
      corpus_after_tax 0 1 (1/100) 1 (1/2) := by
  have hM : (1 : ℤ) ≤ round ((1 : ℝ) * 12) := by
    rw [show round ((1 : ℝ) * 12) = (12 : ℤ) by apply round_eval <;> norm_num]
    norm_num
  have h := C4_monotonicity_amended 1 0 1 (7/100) (1/100) (1/2) 0 0 1
    (by norm_num) (by norm_num) (by norm_num) hM (by norm_num) (by norm_num)
  exact ⟨h.1 2 (by norm_num), h.2.1 1 (by norm_num), h.2.2.1 2 (by norm_num),
    h.2.2.2.1 1 (by norm_num), h.2.2.2.2 1 (by norm_num)⟩

end GoalPlanner
